import Mathlib

/-!
Verification of the core RAG pipeline of the AI-Personal-Research-Assistant
repository: document text extraction (`src/core/document_processor.py`),
chunking, vector indexing and search (`src/core/vector_database.py`), and
the orchestration layer (`src/core/research_assistant.py`).

Python strings are modelled as `List Char` (`Str`), bytes as `Fin 256`,
machine integers as `Nat`, Python dicts built by literal syntax as
association lists where a later binding overrides an earlier one, and
fallible code as `Except`/`Option`.  External collaborators (the Qdrant
client, the sentence-transformers embedder, the Groq LLM client, the
PyPDF2/pypdf page readers, the python-docx parser and the text codecs)
are parameters of the definitions; the qdrant search contract (score
threshold, limit, descending order by score) is modelled explicitly.
-/

/-! ## Python string model -/

/-- Python `str`, modelled as a list of characters. -/
abbrev Str := List Char

/-- Python bytes. -/
abbrev Byte := Fin 256

/-- The whitespace test used by Python `str.strip` / `str.split`.
Modelled by the ASCII whitespace characters recognised by `Char.isWhitespace`. -/
def wsChar (c : Char) : Bool := c.isWhitespace

/-- Python `str.lstrip()`. -/
def pyLstrip (l : Str) : Str := l.dropWhile wsChar

/-- Python `str.rstrip()`. -/
def pyRstrip (l : Str) : Str := ((l.reverse).dropWhile wsChar).reverse

/-- Python `str.strip()`. -/
def pyStrip (l : Str) : Str := pyRstrip (pyLstrip l)

/-- Python `str.lower()` (ASCII range, which covers every character these
programs compare). -/
def lowerStr (l : Str) : Str := l.map Char.toLower

/-- Python `str.split()` with no argument: split on runs of whitespace,
discarding empty fields. -/
def pySplit (l : Str) : List Str :=
  (l.splitOnP wsChar).filter (fun w => !w.isEmpty)

/-- Python `sep.join(pieces)` for a string separator. -/
def joinSep (sep : Str) : List Str → Str
  | [] => []
  | [w] => w
  | w :: x :: ws => w ++ sep ++ joinSep sep (x :: ws)

/-- Python `" ".join(words)`, as used by the chunker. -/
def joinWords (ws : List Str) : Str := joinSep ([' ']) ws

/-- Python `str.splitlines()` for newline-terminated text (file reads in
text mode normalise line endings to a single newline). -/
def pySplitlines : Str → List Str
  | [] => []
  | c :: cs =>
    if c = '\n' then [] :: pySplitlines cs
    else
      match pySplitlines cs with
      | [] => [[c]]
      | l :: ls => (c :: l) :: ls

/-- Decimal rendering of a natural number, as Python string formatting does. -/
def natToStr (n : ℕ) : Str := Nat.toDigits 10 n

/-- The values that appear in the payload dictionaries of this program:
strings and integers. -/
inductive PyVal where
  | s (v : Str)
  | n (v : ℕ)
deriving DecidableEq

/-- A Python dict, as built by dict-literal syntax: an association list in
binding order, where a later binding for a key overrides an earlier one. -/
abbrev Dict := List (Str × PyVal)

/-- Python dict lookup (`d.get(k)` / `d[k]`): the value of the last binding
of the key, if any. -/
def pyGet (d : Dict) (k : Str) : Option PyVal := List.lookup k d.reverse

instance {ε α : Type} [DecidableEq ε] [DecidableEq α] : DecidableEq (Except ε α) :=
  fun x y =>
    match x, y with
    | .ok a, .ok b => if h : a = b then .isTrue (by rw [h]) else .isFalse (by simp [h])
    | .error a, .error b => if h : a = b then .isTrue (by rw [h]) else .isFalse (by simp [h])
    | .ok _, .error _ => .isFalse (by simp)
    | .error _, .ok _ => .isFalse (by simp)

/-- Words produced by `pySplit` are non-empty and contain no whitespace. -/
def GoodWords (ws : List Str) : Prop :=
  ∀ w ∈ ws, w ≠ [] ∧ ∀ c ∈ w, wsChar c = false

/-! ## Chunker (`VectorDatabase.chunk_text`) -/

/-- The candidate chunk for the window starting at word index `i`:
`' '.join(words[i:i + chunk_size]).strip()`. -/
def chunkCand (words : List Str) (cs i : ℕ) : Str :=
  pyStrip (joinWords ((words.drop i).take cs))

/-- The chunk list contribution of one loop iteration: the candidate is
appended only when `chunk.strip()` is non-empty. -/
def chunkKeep (words : List Str) (cs i : ℕ) : List Str :=
  if chunkCand words cs i = [] then [] else [chunkCand words cs i]

/-- The chunking loop `for i in range(0, len(words), chunk_size - overlap)`
with its early `break` once `i + chunk_size >= len(words)`.  Only entered
with a positive stride (`ov < cs`). -/
def chunkGo (words : List Str) (cs ov : ℕ) (hlt : ov < cs) (i : ℕ) : List Str :=
  if words.length ≤ i + cs then chunkKeep words cs i
  else chunkKeep words cs i ++ chunkGo words cs ov hlt (i + (cs - ov))
termination_by words.length - i
decreasing_by
  simp_wf
  omega

/-- The start indices visited by the chunking loop. -/
def chunkStarts (len cs ov : ℕ) (hlt : ov < cs) (i : ℕ) : List ℕ :=
  if len ≤ i + cs then [i] else i :: chunkStarts len cs ov hlt (i + (cs - ov))
termination_by len - i
decreasing_by
  simp_wf
  omega

/-- The message of the `ValueError` raised by `range(0, n, 0)` in Python. -/
def rangeZeroMsg : Str := ("range() arg 3 must not be zero").toList

/-- `VectorDatabase.chunk_text`.  A zero stride (`overlap = chunk_size`,
reachable only when the text is longer than one window) raises `ValueError`
inside `range`; a negative stride makes `range(0, len(words), step)` empty,
so the loop body never runs and the chunk list stays empty. -/
def chunk_text (text : Str) (cs ov : ℕ) : Except Str (List Str) :=
  if pyStrip text = [] then .ok []
  else if (pySplit text).length ≤ cs then .ok [text]
  else if hlt : ov < cs then .ok (chunkGo (pySplit text) cs ov hlt 0)
  else if ov = cs then .error rangeZeroMsg
  else .ok []

/-! ## Vector index (`VectorDatabase.add_document` / `search_similar`) -/

/-- An embedding vector.  Scores are modelled over `ℚ`; the cosine metric
itself lives in the external store and is a parameter (`sim`) below. -/
abbrev Vec := List ℚ

/-- One record of the vector store: an embedding plus its payload dict. -/
structure StoredPoint where
  vector : Vec
  payload : Dict
deriving DecidableEq

/-- The metadata dict passed to `add_document`, with the keys it reads
(each via `metadata.get(...)`, hence optional). -/
structure DocMeta where
  chunk_size : Option ℕ
  chunk_overlap : Option ℕ
  filename : Option Str
  file_type : Option Str
  upload_time : Option Str
  extra_metadata : Option Dict

/-- The result dict of `add_document` (`total_characters` is only
meaningful on success and is 0 otherwise). -/
structure AddResult where
  success : Bool
  error : Option Str
  chunks_added : ℕ
  document_id : Option Str
  total_characters : ℕ
deriving DecidableEq

def unknownStr : Str := ("unknown").toList
def kText : Str := ("text").toList
def kChunkId : Str := ("chunk_id").toList
def kDocumentId : Str := ("document_id").toList
def kDocumentName : Str := ("document_name").toList
def kFileType : Str := ("file_type").toList
def kUploadTime : Str := ("upload_time").toList
def kChunkCount : Str := ("chunk_count").toList

/-- The fixed bindings of the payload dict literal for chunk `i`. -/
def basePayload (docId : Str) (md : DocMeta) (nowTime : Str) (total i : ℕ)
    (chunk : Str) : Dict :=
  [(kText, PyVal.s chunk),
   (kChunkId, PyVal.n i),
   (kDocumentId, PyVal.s docId),
   (kDocumentName, PyVal.s (md.filename.getD unknownStr)),
   (kFileType, PyVal.s (md.file_type.getD unknownStr)),
   (kUploadTime, PyVal.s (md.upload_time.getD nowTime)),
   (kChunkCount, PyVal.n total)]

/-- The payload dict literal built for chunk `i`, with
`**metadata.get("extra_metadata", {})` splatted after the fixed keys
(so a colliding extra key overrides the fixed binding). -/
def payloadFor (docId : Str) (md : DocMeta) (nowTime : Str) (total i : ℕ)
    (chunk : Str) : Dict :=
  basePayload docId md nowTime total i chunk ++ md.extra_metadata.getD []

def emptyTextMsg : Str := ("Empty text provided").toList
def noChunksMsg : Str := ("No chunks generated from text").toList

/-- The seven payload keys `add_document` always writes. -/
def reservedKeys : List Str :=
  [kText, kChunkId, kDocumentId, kDocumentName, kFileType, kUploadTime, kChunkCount]

/-- The part of `add_document` after `chunk_text` ran (or raised): embed
every chunk, build one point per chunk, report success. -/
def addDocChunks (embed : Str → Vec) (nowTime docId text : Str) (md : DocMeta) :
    Except Str (List Str) → AddResult × List StoredPoint
  | .error e => (⟨false, some e, 0, none, 0⟩, [])
  | .ok chunks =>
    if chunks.isEmpty then (⟨false, some noChunksMsg, 0, none, 0⟩, [])
    else
      (⟨true, none, chunks.length, some docId, text.length⟩,
       (chunks.zip (chunks.map embed)).enum.map
         (fun p => ⟨p.2.2, payloadFor docId md nowTime chunks.length p.1 p.2.1⟩))

/-- `VectorDatabase.add_document`.  `embed` stands for the sentence
transformer (`encode` maps each chunk to one vector), `docId` for the
fresh `uuid4` document id, `nowTime` for `datetime.now().isoformat()`;
the random per-point uuids are not modelled.  Returns the result dict and
the list of upserted points.  The `ValueError` a zero chunking stride
raises is caught by the surrounding `except` and becomes the error field. -/
def add_document (embed : Str → Vec) (nowTime docId : Str) (text : Str)
    (md : DocMeta) : AddResult × List StoredPoint :=
  if pyStrip text = [] then (⟨false, some emptyTextMsg, 0, none, 0⟩, [])
  else addDocChunks embed nowTime docId text md
    (chunk_text text (md.chunk_size.getD 500) (md.chunk_overlap.getD 50))

/-- Descending-score order on scored payloads. -/
def scoreGe (a b : Dict × ℚ) : Prop := b.2 ≤ a.2

instance : DecidableRel scoreGe := fun a b => inferInstanceAs (Decidable (b.2 ≤ a.2))

instance : IsTotal (Dict × ℚ) scoreGe := ⟨fun a b => le_total b.2 a.2⟩

instance : IsTrans (Dict × ℚ) scoreGe := ⟨fun _ _ _ h1 h2 => le_trans h2 h1⟩

/-- Qdrant `must`-filter semantics: every filter condition is an equality
match on a payload field. -/
def matchFilter (fc : Dict) (p : Dict) : Bool :=
  fc.all (fun kv => decide (pyGet p kv.1 = some kv.2))

/-- The qdrant client `search` contract (external library, modelled from
its documented behaviour): score every stored point that passes the
filter, drop scores below the threshold, order by descending score and
truncate to `limit`. -/
def qdrant_search (sim : Vec → Vec → ℚ) (store : List StoredPoint) (qv : Vec)
    (limit : ℕ) (thr : ℚ) (fc : Dict) : List (Dict × ℚ) :=
  (List.insertionSort scoreGe
    (((store.filter (fun p => matchFilter fc p.payload)).map
        (fun p => (p.payload, sim qv p.vector))).filter
      (fun r => decide (thr ≤ r.2)))).take limit

/-- One formatted search result, as `search_similar` builds it. -/
structure SearchHit where
  text : PyVal
  score : ℚ
  document_name : PyVal
  document_id : PyVal
  chunk_id : PyVal
  file_type : PyVal
  upload_time : PyVal
deriving DecidableEq

def formatHit (r : Dict × ℚ) : SearchHit :=
  ⟨(pyGet r.1 kText).getD (PyVal.s []),
   r.2,
   (pyGet r.1 kDocumentName).getD (PyVal.s unknownStr),
   (pyGet r.1 kDocumentId).getD (PyVal.s unknownStr),
   (pyGet r.1 kChunkId).getD (PyVal.n 0),
   (pyGet r.1 kFileType).getD (PyVal.s unknownStr),
   (pyGet r.1 kUploadTime).getD (PyVal.s unknownStr)⟩

/-- `VectorDatabase.search_similar`.  Returns the formatted results plus a
flag recording whether the embedder was invoked.  A whitespace-only query
returns `[]` before the embedder runs.  `result.payload["text"]` raises
`KeyError` when absent; that exception is swallowed by the surrounding
`except`, which returns `[]` (after the embedder already ran). -/
def search_similar (sim : Vec → Vec → ℚ) (embed : Str → Vec)
    (store : List StoredPoint) (query : Str) (limit : ℕ) (thr : ℚ)
    (fc : Dict) : List SearchHit × Bool :=
  if pyStrip query = [] then ([], false)
  else if (qdrant_search sim store (embed query) limit thr fc).all
      (fun r => (pyGet r.1 kText).isSome) then
    ((qdrant_search sim store (embed query) limit thr fc).map formatHit, true)
  else ([], true)

/-! ## Document processor (`DocumentProcessor`) -/

/-- The ASCII apostrophe used to quote filenames in status messages. -/
def apos : Char := Char.ofNat 39

/-- `pathlib.Path(name).suffix` for a plain file name (no directory
separators, as upload filenames are): the slice from the last dot,
provided that dot is neither the first nor the last character. -/
def pathSuffix (name : Str) : Str :=
  match (name.reverse).findIdx? (fun c => c == ('.')) with
  | none => []
  | some j =>
    if 0 < name.length - 1 - j ∧ name.length - 1 - j < name.length - 1 then
      name.drop (name.length - 1 - j)
    else []

def supportedTypes : List Str := [(".pdf").toList, (".docx").toList, (".txt").toList]

/-- `utils.config.validate_file_type`. -/
def validate_file_type (filename : Str) : Bool :=
  decide (lowerStr (pathSuffix filename) ∈ supportedTypes)

/-- `utils.config.validate_file_size` (`size` in bytes). -/
def validate_file_size (size maxMB : ℕ) : Bool :=
  decide (size ≤ maxMB * 1024 * 1024)

def kEncoding : Str := ("encoding").toList
def kLines : Str := ("lines").toList
def kMethod : Str := ("method").toList
def encUtf8 : Str := ("utf-8").toList
def encUtf16 : Str := ("utf-16").toList
def encLatin1 : Str := ("latin-1").toList
def encCp1252 : Str := ("cp1252").toList
def encIso : Str := ("iso-8859-1").toList
def plainTextStr : Str := ("plain_text").toList

/-- The latin-1 codec: total — every byte maps to the Unicode code point
of the same value, so decoding can never fail. -/
def latin1Decode (bs : List Byte) : Option Str :=
  some (bs.map (fun b => Char.ofNat b.val))

/-- The metadata dict `_extract_txt_text` returns for decoded text `t`. -/
def txtMeta (enc : Str) (t : Str) : Dict :=
  [(kEncoding, PyVal.s enc),
   (kLines, PyVal.n (if t.isEmpty then 0 else (pySplitlines t).length)),
   (kMethod, PyVal.s plainTextStr)]

def decodeErrMsg : Str :=
  ("Failed to decode text file with any supported encoding").toList

/-- The encoding-fallback loop of `_extract_txt_text`: try each codec in
order, skipping on `UnicodeDecodeError` (`none`). -/
def tryEncodings : List (Str × (List Byte → Option Str)) → List Byte →
    Except Str (Str × Dict)
  | [], _ => .error decodeErrMsg
  | (nm, dec) :: rest, bs =>
    match dec bs with
    | some t => .ok (pyStrip t, txtMeta nm t)
    | none => tryEncodings rest bs

/-- `DocumentProcessor._extract_txt_text`.  The utf-8, utf-16, cp1252 and
iso-8859-1 codecs are external and abstract; latin-1 is the concrete total
codec above.  A zero-byte file short-circuits to empty text. -/
def extract_txt_text (u8 u16 cp iso : List Byte → Option Str)
    (bs : List Byte) : Except Str (Str × Dict) :=
  if bs.isEmpty then .ok ([], txtMeta encUtf8 [])
  else tryEncodings
    [(encUtf8, u8), (encUtf16, u16), (encLatin1, latin1Decode),
     (encCp1252, cp), (encIso, iso)] bs

/-- The 5-byte PDF magic marker `%PDF-`. -/
def pdfMagic : List Byte :=
  [(37 : Byte), (80 : Byte), (68 : Byte), (70 : Byte), (45 : Byte)]

def pdfEmptyMsg : Str := ("PDF file is empty (0 bytes)").toList
def pdfHeaderMsg : Str := ("File is not a valid PDF (missing PDF header)").toList

/-- The composite error message when both PDF readers yield no text. -/
def pdfBothFailedMsg (e1 e2 : Option Str) : Str :=
  ("Both PDF readers failed to extract text. ").toList
  ++ (match e1 with
      | some e => ("PyPDF2: ").toList ++ e ++ (". ").toList
      | none => [])
  ++ (match e2 with
      | some e => ("pypdf: ").toList ++ e ++ (". ").toList
      | none => [])
  ++ ("This might be a scanned PDF, encrypted PDF, or the text might be embedded as images.").toList

/-- The pypdf fallback attempt of `_extract_pdf_text` (`e1` is the PyPDF2
error, if PyPDF2 raised). -/
def pdfSecond (f2 : List Byte → Except Str (Str × Dict)) (bs : List Byte)
    (e1 : Option Str) : Except Str (Str × Dict) :=
  match f2 bs with
  | .ok (t, md) =>
    if (pyStrip t).isEmpty then .error (pdfBothFailedMsg e1 none)
    else .ok (pyStrip t, md)
  | .error e2 => .error (pdfBothFailedMsg e1 (some e2))

/-- `DocumentProcessor._extract_pdf_text`.  `f1`/`f2` stand for the
PyPDF2/pypdf per-page extraction loops (external libraries): they return
the concatenated page text and page metadata, or the library error.  The
zero-byte and magic-byte validations precede both readers. -/
def extract_pdf_text (f1 f2 : List Byte → Except Str (Str × Dict))
    (bs : List Byte) : Except Str (Str × Dict) :=
  if bs.isEmpty then .error pdfEmptyMsg
  else if !(decide (bs.take 5 = pdfMagic)) then .error pdfHeaderMsg
  else
    match f1 bs with
    | .ok (t, md) =>
      if (pyStrip t).isEmpty then pdfSecond f2 bs none
      else .ok (pyStrip t, md)
    | .error e1 => pdfSecond f2 bs (some e1)

def kParagraphs : Str := ("paragraphs").toList
def kTables : Str := ("tables").toList
def pythonDocxStr : Str := ("python-docx").toList
def docxNoTextMsg : Str := ("No text found in DOCX document").toList
def tableMarkerPre : Str := ("\n--- Table ").toList
def tableMarkerPost : Str := (" ---\n").toList
def cellSep : Str := (" | ").toList

/-- The paragraph part of `_extract_docx_text`: every paragraph with
non-whitespace text is appended verbatim plus a newline. -/
def docxParaText (paras : List Str) : Str :=
  ((paras.filter (fun p => !(pyStrip p).isEmpty)).map
    (fun p => p ++ [('\n')])).flatten

/-- The stripped non-empty cells of one table row. -/
def docxRowCells (row : List Str) : List Str :=
  (row.map pyStrip).filter (fun c => !c.isEmpty)

/-- One rendered table row: the non-empty cells joined by `" | "` plus a
newline, or nothing when no cell has content. -/
def docxRowLine (row : List Str) : Str :=
  if (docxRowCells row).isEmpty then []
  else joinSep cellSep (docxRowCells row) ++ [('\n')]

/-- One rendered table (1-indexed marker plus its row lines). -/
def docxTableText (n : ℕ) (t : List (List Str)) : Str :=
  tableMarkerPre ++ natToStr n ++ tableMarkerPost ++ (t.map docxRowLine).flatten

/-- All rendered tables of a document. -/
def docxTablesText (tables : List (List (List Str))) : Str :=
  (tables.enum.map (fun p => docxTableText (p.1 + 1) p.2)).flatten

/-- `DocumentProcessor._extract_docx_text`, after python-docx parsing: the
document is given as its paragraph texts and its tables (rows of cell
texts).  The file-existence, zero-byte and parse errors happen upstream in
the abstracted `docxParse` collaborator. -/
def extract_docx_text (paras : List Str) (tables : List (List (List Str))) :
    Except Str (Str × Dict) :=
  if pyStrip (docxParaText paras ++ docxTablesText tables) = [] then
    .error docxNoTextMsg
  else
    .ok (pyStrip (docxParaText paras ++ docxTablesText tables),
      [(kParagraphs, PyVal.n ((paras.filter (fun p => !(pyStrip p).isEmpty)).length)),
       (kTables, PyVal.n tables.length),
       (kMethod, PyVal.s pythonDocxStr)])

/-- Modelled from the spec (for the C8 refinement): one rendered table row
is the non-empty (stripped) cells joined by `" | "` plus a newline; a row
with no non-empty cells contributes no line. -/
def specRowLine (row : List Str) : Str :=
  if ((row.map pyStrip).filter (fun c => !c.isEmpty)).isEmpty then []
  else joinSep ((" | ").toList) ((row.map pyStrip).filter (fun c => !c.isEmpty))
    ++ [('\n')]

/-- Modelled from the spec (for the C8 refinement): each table is rendered
as a `--- Table N ---` marker (1-indexed) followed by its row lines. -/
def specTablesRender (tables : List (List (List Str))) : Str :=
  (tables.enum.map (fun p =>
    ("\n--- Table ").toList ++ natToStr (p.1 + 1) ++ (" ---\n").toList
      ++ (p.2.map specRowLine).flatten)).flatten

/-- The result dict of `DocumentProcessor.extract_text`. -/
structure ExtractResult where
  success : Bool
  text : Str
  filename : Str
  file_type : Str
  error : Option Str
  metadata : Dict
deriving DecidableEq

def unsupportedMsg (ft : Str) : Str := ("Unsupported file type: ").toList ++ ft

def tooLargeMsg (maxMB : ℕ) : Str :=
  ("File too large (max ").toList ++ natToStr maxMB ++ ("MB)").toList

def noTextMsg : Str :=
  ("No text could be extracted from the document. The file might be scanned, empty, or corrupted.").toList

def mkExtractFail (filename ft e : Str) : ExtractResult :=
  ⟨false, [], filename, ft, some e, []⟩

/-- The per-extension dispatch inside `extract_text`. -/
def dispatchExtract (pdfF docxF : List Byte → Except Str (Str × Dict))
    (u8 u16 cp iso : List Byte → Option Str) (ft : Str) (bs : List Byte) :
    Except Str (Str × Dict) :=
  if ft = (".pdf").toList then pdfF bs
  else if ft = (".docx").toList then docxF bs
  else if ft = (".txt").toList then extract_txt_text u8 u16 cp iso bs
  else .error (unsupportedMsg ft)

/-- `DocumentProcessor.extract_text`: type and size validation, dispatch,
then the `text and text.strip()` meaningful-content gate. -/
def extract_text (pdfF docxF : List Byte → Except Str (Str × Dict))
    (u8 u16 cp iso : List Byte → Option Str) (maxMB : ℕ) (bs : List Byte)
    (filename : Str) : ExtractResult :=
  if !(validate_file_type filename) then
    mkExtractFail filename (lowerStr (pathSuffix filename))
      (unsupportedMsg (lowerStr (pathSuffix filename)))
  else if !(validate_file_size bs.length maxMB) then
    mkExtractFail filename (lowerStr (pathSuffix filename)) (tooLargeMsg maxMB)
  else
    match dispatchExtract pdfF docxF u8 u16 cp iso
        (lowerStr (pathSuffix filename)) bs with
    | .error e => mkExtractFail filename (lowerStr (pathSuffix filename)) e
    | .ok (t, md) =>
      if (pyStrip t).isEmpty then
        mkExtractFail filename (lowerStr (pathSuffix filename)) noTextMsg
      else ⟨true, t, filename, (lowerStr (pathSuffix filename)), none, md⟩

/-! ## Orchestrator (`ResearchAssistant`) -/

/-- The external collaborators and configuration of a `ResearchAssistant`
instance. -/
structure Env where
  pdfReader1 : List Byte → Except Str (Str × Dict)
  pdfReader2 : List Byte → Except Str (Str × Dict)
  docxParse : List Byte → Except Str (Str × Dict)
  u8 : List Byte → Option Str
  u16 : List Byte → Option Str
  cp1252 : List Byte → Option Str
  iso88591 : List Byte → Option Str
  embed : Str → Vec
  sim : Vec → Vec → ℚ
  llm : Str → Str → Except Str Str
  chunkSizeCfg : ℕ
  chunkOverlapCfg : ℕ
  maxFileSizeMB : ℕ
  nowTime : Str
  docIdGen : ℕ → Str

/-- `self.doc_processor.extract_text` with this environment's collaborators. -/
def envExtract (env : Env) (bs : List Byte) (filename : Str) : ExtractResult :=
  extract_text (extract_pdf_text env.pdfReader1 env.pdfReader2) env.docxParse
    env.u8 env.u16 env.cp1252 env.iso88591 env.maxFileSizeMB bs filename

def failedProcessMsg (filename e : Str) : Str :=
  ("❌ Failed to process ").toList ++ [apos] ++ filename ++ [apos] ++ (": ").toList ++ e

def emptyDocMsg (filename : Str) : Str :=
  ("❌ ").toList ++ [apos] ++ filename ++ [apos]
  ++ (" appears to be empty or contains no meaningful lines to process.").toList

def dbFailMsg (filename e : Str) : Str :=
  ("❌ Failed to add ").toList ++ [apos] ++ filename ++ [apos]
  ++ (" to database: ").toList ++ e

def successPre : Str := ("✅ Successfully processed ").toList

def successMsg (filename : Str) (chunks chars : ℕ) : Str :=
  successPre ++ [apos] ++ filename ++ [apos] ++ (": ").toList ++ natToStr chunks
  ++ (" chunks added (").toList ++ natToStr chars ++ (" characters)").toList

def errorProcessingMsg (name e : Str) : Str :=
  ("❌ Error processing ").toList ++ [apos] ++ name ++ [apos] ++ (": ").toList ++ e

def emptyUploadMsg : Str := ("Uploaded file is empty.").toList

def noneStr : Str := ("None").toList

/-- Python string interpolation of an optional error (`None` prints as
`"None"`). -/
def errToStr : Option Str → Str
  | some e => e
  | none => noneStr

/-- `ResearchAssistant.process_single_document`: extract, check for
meaningful lines, then hand to `add_document`; every outcome is a status
line. -/
def process_single_document (env : Env) (bs : List Byte)
    (filename docId : Str) : Str :=
  if (envExtract env bs filename).success = false then
    failedProcessMsg filename (errToStr (envExtract env bs filename).error)
  else if (((pySplitlines (envExtract env bs filename).text).map pyStrip).filter
      (fun l => !l.isEmpty)).isEmpty then
    emptyDocMsg filename
  else
    (fun db : AddResult × List StoredPoint =>
      if db.1.success then
        successMsg filename db.1.chunks_added db.1.total_characters
      else dbFailMsg filename (errToStr db.1.error))
    (add_document env.embed env.nowTime docId (envExtract env bs filename).text
      ⟨some env.chunkSizeCfg, some env.chunkOverlapCfg, some filename,
       some (envExtract env bs filename).file_type, some env.nowTime,
       some (envExtract env bs filename).metadata⟩)

/-- One uploaded file: its original name and its bytes (the gradio path
handling is I/O plumbing; the orchestrator only needs readable bytes). -/
structure UploadFile where
  filename : Str
  bytes : List Byte
deriving DecidableEq

/-- The status line of one file in a batch: the empty-upload guard raises
into the per-file `except`, anything else goes through
`process_single_document`. -/
def statusLine (env : Env) (idx : ℕ) (f : UploadFile) : Str :=
  if f.bytes.isEmpty then errorProcessingMsg f.filename emptyUploadMsg
  else process_single_document env f.bytes f.filename (env.docIdGen idx)

/-- The accumulated per-file status lines of `process_documents`. -/
def statusLines (env : Env) (files : List UploadFile) : List Str :=
  files.enum.map (fun p => statusLine env p.1 p.2)

def succPhrase : Str := ("successfully processed").toList

/-- Whether one file increments the success counter.  The phrase test
`"successfully processed" in result.lower()` runs inside the `try`, only
on the line returned by `process_single_document`; a file that raises
before that call (the empty-upload guard) reaches the `except` handler,
whose status line is appended but never tested, so it is never counted. -/
def countedSuccess (env : Env) (idx : ℕ) (f : UploadFile) : Bool :=
  if f.bytes.isEmpty then false
  else decide (succPhrase <:+:
    lowerStr (process_single_document env f.bytes f.filename (env.docIdGen idx)))

/-- The success counter of `process_documents`. -/
def countSuccessLines (env : Env) (files : List UploadFile) : ℕ :=
  files.enum.countP (fun p => countedSuccess env p.1 p.2)

def summaryOk (succ total : ℕ) : Str :=
  ("\n\n📊 **Summary**: Successfully processed **").toList ++ natToStr succ
  ++ ("/").toList ++ natToStr total ++ ("** files.").toList
  ++ ("\n\n✅ Your documents are now available in the knowledge base.").toList

def summaryFail (total : ℕ) : Str :=
  ("\n\n❌ **Summary**: No files were successfully processed out of ").toList
  ++ natToStr total ++ (" files.").toList
  ++ ("\n\n💡 **Tips**: Make sure your files are not corrupted, encrypted, or scanned images.").toList

def summaryMsg (succ total : ℕ) : Str :=
  if 0 < succ then summaryOk succ total else summaryFail total

def noFilesMsg : Str := ("No files uploaded.").toList

/-- `ResearchAssistant.process_documents`. -/
def process_documents (env : Env) (files : List UploadFile) : Str :=
  if files.isEmpty then noFilesMsg
  else joinSep [('\n')] (statusLines env files)
    ++ summaryMsg (countSuccessLines env files) files.length

def genErrPre : Str := ("❌ Error generating response: ").toList
def noContextStr : Str := ("No relevant context found.").toList

def sysPromptPre : Str :=
  ("You are an AI research assistant. Use the following context to answer the question.\nIf the context is not sufficient, say so clearly instead of guessing.\nContext:\n").toList

def questionPre : Str := ("Question: ").toList

/-- Abbreviated text of the `TypeError` CPython raises when `"\n\n".join`
meets a non-string item (reachable only when a stored payload carries a
non-string under `"text"`). -/
def joinTypeErrMsg : Str := ("sequence item 0: expected str instance").toList

def pyStrOf : PyVal → Option Str
  | .s v => some v
  | .n _ => none

/-- The chunks retrieved for a query: `search_similar(query, limit=5)`. -/
def retrievedHits (env : Env) (store : List StoredPoint) (query : Str) :
    List SearchHit :=
  (search_similar env.sim env.embed store query 5 0 []).1

/-- The retrieved texts, if they are all strings (otherwise `join` raises). -/
def contextTexts (env : Env) (store : List StoredPoint) (query : Str) :
    Option (List Str) :=
  ((retrievedHits env store query).map (fun h => h.text)).mapM pyStrOf

/-- The context block: retrieved texts joined by blank lines, or the
no-context placeholder. -/
def contextOf (env : Env) (store : List StoredPoint) (query : Str) : Str :=
  match contextTexts env store query with
  | some ts => if ts.isEmpty then noContextStr else joinSep (("\n\n").toList) ts
  | none => []

def sysPromptOf (env : Env) (store : List StoredPoint) (query : Str) : Str :=
  sysPromptPre ++ contextOf env store query

def userPromptOf (query : Str) : Str := questionPre ++ query

/-- `ResearchAssistant.generate_response`: returns the answer text and the
updated conversation history.  Any exception before or during the LLM call
is caught and becomes the visible error answer, leaving history unchanged;
on success the stripped answer is appended as `(query, answer)`. -/
def generate_response (env : Env) (store : List StoredPoint) (query : Str)
    (history : List (Str × Str)) : Str × List (Str × Str) :=
  match contextTexts env store query with
  | none => (genErrPre ++ joinTypeErrMsg, history)
  | some _ =>
    match env.llm (sysPromptOf env store query) (userPromptOf query) with
    | .error e => (genErrPre ++ e, history)
    | .ok a => (pyStrip a, history ++ [(query, pyStrip a)])

/-! ## Concrete collaborator stubs used by witnesses and counterexamples -/

/-- A PDF/docx reader stub that always raises. -/
def pdfStub : List Byte → Except Str (Str × Dict) := fun _ => .error []

/-- A text codec stub that always raises `UnicodeDecodeError`. -/
def decStub : List Byte → Option Str := fun _ => none

/-- An embedder stub. -/
def embedStub : Str → Vec := fun _ => []

/-- A similarity stub. -/
def simStub : Vec → Vec → ℚ := fun _ _ => 0

/-- An LLM stub whose call always raises. -/
def llmErrStub : Str → Str → Except Str Str := fun _ _ => .error []

/-- A fully stubbed environment with the default configuration values. -/
def envStub : Env :=
  ⟨pdfStub, pdfStub, pdfStub, decStub, decStub, decStub, decStub,
   embedStub, simStub, llmErrStub, 500, 50, 50, [], fun _ => []⟩

/-- A text codec stub that decodes everything to a whitespace-only string. -/
def wsDecStub : List Byte → Option Str := fun _ => some ((" ").toList)

/-- An LLM stub that always answers `" Hello "`. -/
def llmOkStub : Str → Str → Except Str Str := fun _ _ => .ok ((" Hello ").toList)

/-- The stubbed environment with the always-answering LLM. -/
def envLlmOk : Env :=
  ⟨pdfStub, pdfStub, pdfStub, decStub, decStub, decStub, decStub,
   embedStub, simStub, llmOkStub, 500, 50, 50, [], fun _ => []⟩

/-- The detector the success counter of `process_documents` relies on,
restricted to genuine success lines: these start with the literal prefix
`"✅ Successfully processed "`. -/
def isSuccessLine (r : Str) : Bool :=
  decide (r.take successPre.length = successPre)

/-! ## Basic lemmas about the string model -/

theorem joinSep_cons_cons (sep : Str) (w x : Str) (ws : List Str) :
    joinSep sep (w :: x :: ws) = w ++ sep ++ joinSep sep (x :: ws) := rfl

theorem goodWords_mem_splitOnP (l : Str) :
    ∀ w ∈ l.splitOnP wsChar, ∀ c ∈ w, wsChar c = false := by
  induction l with
  | nil =>
    intro w hw c hc
    rw [List.splitOnP_nil, List.mem_singleton] at hw
    subst hw
    exact absurd hc (List.not_mem_nil c)
  | cons x xs ih =>
    intro w hw c hc
    rw [List.splitOnP_cons] at hw
    by_cases hx : wsChar x
    · rw [if_pos hx, List.mem_cons] at hw
      rcases hw with hw | hw
      · subst hw; exact absurd hc (List.not_mem_nil c)
      · exact ih w hw c hc
    · rw [if_neg hx] at hw
      rcases hxs : xs.splitOnP wsChar with _ | ⟨h0, t0⟩
      · exact absurd hxs (List.splitOnP_ne_nil _ xs)
      · rw [hxs, List.modifyHead_cons, List.mem_cons] at hw
        rcases hw with hw | hw
        · subst hw
          rw [List.mem_cons] at hc
          rcases hc with hc | hc
          · subst hc; simpa using hx
          · exact ih h0 (by rw [hxs]; exact List.mem_cons_self _ _) c hc
        · exact ih w (by rw [hxs]; exact List.mem_cons_of_mem _ hw) c hc

theorem goodWords_pySplit (l : Str) : GoodWords (pySplit l) := by
  intro w hw
  unfold pySplit at hw
  rw [List.mem_filter] at hw
  refine ⟨by simpa using hw.2, ?_⟩
  exact goodWords_mem_splitOnP l w hw.1

theorem goodWords_sublist {ws ws2 : List Str} (h : ws2.Sublist ws)
    (hg : GoodWords ws) : GoodWords ws2 :=
  fun w hw => hg w (h.mem hw)

theorem goodWords_take {ws : List Str} (n : ℕ) (hg : GoodWords ws) :
    GoodWords (ws.take n) := goodWords_sublist (List.take_sublist n ws) hg

theorem goodWords_drop {ws : List Str} (n : ℕ) (hg : GoodWords ws) :
    GoodWords (ws.drop n) := goodWords_sublist (List.drop_sublist n ws) hg

/-- Splitting the space-joined form of a list of good words recovers the
words. -/
theorem filter_nonempty_cons (w : Str) (hw : w ≠ []) (l : List Str) :
    (w :: l).filter (fun v => !v.isEmpty) = w :: l.filter (fun v => !v.isEmpty) := by
  have hwe : (!w.isEmpty) = true := by
    cases w with
    | nil => exact absurd rfl hw
    | cons c cs => rfl
  rw [List.filter_cons, if_pos hwe]

theorem pySplit_joinWords (ws : List Str) (hg : GoodWords ws) :
    pySplit (joinWords ws) = ws := by
  induction ws with
  | nil => rfl
  | cons w tail ih =>
    rcases tail with _ | ⟨x, rest⟩
    · have hw := hg w (List.mem_cons_self _ _)
      have h1 : joinWords [w] = w := rfl
      unfold pySplit
      rw [h1]
      rw [List.splitOnP_eq_single]
      · rw [filter_nonempty_cons w hw.1]
        rfl
      · intro c hc
        simp [hw.2 c hc]
    · have hjoin : joinWords (w :: x :: rest) = w ++ ' ' :: joinWords (x :: rest) := by
        show w ++ [' '] ++ joinWords (x :: rest) = w ++ ' ' :: joinWords (x :: rest)
        rw [List.append_assoc]
        rfl
      have hw := hg w (List.mem_cons_self _ _)
      have hgtail : GoodWords (x :: rest) :=
        fun y hy => hg y (List.mem_cons_of_mem _ hy)
      unfold pySplit
      rw [hjoin, List.splitOnP_first]
      · rw [filter_nonempty_cons w hw.1]
        have := ih hgtail
        unfold pySplit at this
        rw [this]
      · intro c hc
        simp [hw.2 c hc]
      · rfl

theorem dropWhile_ws_eq_self (l : Str) (h : wsChar l.headI = false) :
    l.dropWhile wsChar = l := by
  cases l with
  | nil => rfl
  | cons a t =>
    have ha : wsChar a = false := h
    simp [List.dropWhile_cons, ha]

theorem pyStrip_eq_nil_iff (l : Str) :
    pyStrip l = [] ↔ ∀ c ∈ l, wsChar c = true := by
  unfold pyStrip pyRstrip pyLstrip
  constructor
  · intro h c hc
    rw [List.reverse_eq_nil_iff, List.dropWhile_eq_nil_iff] at h
    have hc2 : c ∈ l.takeWhile wsChar ++ l.dropWhile wsChar := by
      rw [List.takeWhile_append_dropWhile]
      exact hc
    rcases List.mem_append.mp hc2 with h1 | h1
    · exact List.mem_takeWhile_imp h1
    · exact h c (List.mem_reverse.mpr h1)
  · intro h
    have h1 : l.dropWhile wsChar = [] :=
      List.dropWhile_eq_nil_iff.mpr (fun x hx => h x hx)
    rw [h1]
    rfl

theorem joinWords_cons_cons (w x : Str) (r : List Str) :
    joinWords (w :: x :: r) = (w ++ [' ']) ++ joinWords (x :: r) := by
  show w ++ [' '] ++ joinSep ([' ']) (x :: r) = (w ++ [' ']) ++ joinSep ([' ']) (x :: r)
  rfl

theorem joinWords_ne_nil (ws : List Str) (hg : GoodWords ws) (hne : ws ≠ []) :
    joinWords ws ≠ [] := by
  rcases ws with _ | ⟨w, t⟩
  · exact absurd rfl hne
  · rcases t with _ | ⟨x, r⟩
    · exact (hg w (List.mem_cons_self _ _)).1
    · rw [joinWords_cons_cons]
      intro habs
      simp at habs

theorem joinWords_headI_nonws (ws : List Str) (hg : GoodWords ws) :
    wsChar ((joinWords ws).headI) = false := by
  rcases ws with _ | ⟨w, t⟩
  · decide
  · have hw := hg w (List.mem_cons_self _ _)
    rcases hwc : w with _ | ⟨c, cs0⟩
    · exact absurd hwc hw.1
    · have hc : wsChar c = false := by
        refine hw.2 c ?_
        rw [hwc]
        exact List.mem_cons_self _ _
      rcases t with _ | ⟨x, r⟩
      · exact hc
      · rw [joinWords_cons_cons]
        exact hc

theorem joinWords_rev_headI_nonws :
    ∀ ws : List Str, GoodWords ws → wsChar (((joinWords ws).reverse).headI) = false
  | [], _ => by decide
  | [w], hg => by
    have hw := hg w (List.mem_cons_self _ _)
    have hwrev : w.reverse ≠ [] := by
      intro habs
      exact hw.1 (by simpa using habs)
    rcases hrv : w.reverse with _ | ⟨b, bs⟩
    · exact absurd hrv hwrev
    · have hb : b ∈ w := by
        refine List.mem_reverse.mp ?_
        rw [hrv]
        exact List.mem_cons_self _ _
      have h1 : joinWords [w] = w := rfl
      rw [h1, hrv]
      exact hw.2 b hb
  | w :: x :: r, hg => by
    have hgt : GoodWords (x :: r) := fun y hy => hg y (List.mem_cons_of_mem _ hy)
    have hjn : joinWords (x :: r) ≠ [] := joinWords_ne_nil _ hgt (by simp)
    have hrevne : (joinWords (x :: r)).reverse ≠ [] := by
      intro habs
      exact hjn (by simpa using habs)
    have ih := joinWords_rev_headI_nonws (x :: r) hgt
    rw [joinWords_cons_cons, List.reverse_append]
    rcases hrv : (joinWords (x :: r)).reverse with _ | ⟨b, bs⟩
    · exact absurd hrv hrevne
    · rw [hrv] at ih
      exact ih

theorem pyStrip_joinWords (ws : List Str) (hg : GoodWords ws) :
    pyStrip (joinWords ws) = joinWords ws := by
  unfold pyStrip pyLstrip pyRstrip
  rw [dropWhile_ws_eq_self _ (joinWords_headI_nonws ws hg)]
  rw [dropWhile_ws_eq_self _ (joinWords_rev_headI_nonws ws hg)]
  exact List.reverse_reverse _

theorem take_ne_nil_of_pos {α : Type} (l : List α) (n : ℕ) (hl : l ≠ [])
    (hn : 0 < n) : l.take n ≠ [] := by
  cases l with
  | nil => exact absurd rfl hl
  | cons a t =>
    cases n with
    | zero => omega
    | succ m => simp

/-! ## Lemmas about the chunking loop -/

theorem chunkKeep_eq (words : List Str) (cs i : ℕ) (hg : GoodWords words)
    (hi : i < words.length) (hcs : 0 < cs) :
    chunkKeep words cs i = [joinWords ((words.drop i).take cs)] ∧
      chunkCand words cs i = joinWords ((words.drop i).take cs) := by
  have hwin_ne : (words.drop i).take cs ≠ [] := by
    refine take_ne_nil_of_pos _ _ ?_ hcs
    rw [ne_eq, List.drop_eq_nil_iff]
    omega
  have hgwin : GoodWords ((words.drop i).take cs) :=
    goodWords_take _ (goodWords_drop _ hg)
  have hcand : chunkCand words cs i = joinWords ((words.drop i).take cs) := by
    unfold chunkCand
    exact pyStrip_joinWords _ hgwin
  have hne2 : chunkCand words cs i ≠ [] := by
    rw [hcand]
    exact joinWords_ne_nil _ hgwin hwin_ne
  refine ⟨?_, hcand⟩
  unfold chunkKeep
  rw [if_neg hne2, hcand]

theorem chunkGo_eq_map (words : List Str) (cs ov : ℕ) (hlt : ov < cs)
    (hg : GoodWords words) :
    ∀ n i, words.length - i ≤ n → i < words.length →
      chunkGo words cs ov hlt i =
        (chunkStarts words.length cs ov hlt i).map
          (fun j => joinWords ((words.drop j).take cs)) := by
  intro n
  induction n with
  | zero => intro i h hi; omega
  | succ n ih =>
    intro i h hi
    have hcs : 0 < cs := by omega
    obtain ⟨hkeep, _⟩ := chunkKeep_eq words cs i hg hi hcs
    rw [chunkGo.eq_def, chunkStarts.eq_def]
    by_cases hb : words.length ≤ i + cs
    · rw [if_pos hb, if_pos hb, hkeep]
      rfl
    · rw [if_neg hb, if_neg hb, hkeep, List.map_cons]
      rw [ih (i + (cs - ov)) (by omega) (by omega)]
      rfl

theorem chunkStarts_mem_lt (len cs ov : ℕ) (hlt : ov < cs) :
    ∀ n i, len - i ≤ n → i < len →
      ∀ j ∈ chunkStarts len cs ov hlt i, j < len := by
  intro n
  induction n with
  | zero => intro i h hi; omega
  | succ n ih =>
    intro i h hi j hj
    rw [chunkStarts.eq_def] at hj
    by_cases hb : len ≤ i + cs
    · rw [if_pos hb, List.mem_singleton] at hj
      omega
    · rw [if_neg hb, List.mem_cons] at hj
      rcases hj with hj | hj
      · omega
      · exact ih (i + (cs - ov)) (by omega) (by omega) j hj

theorem chunkStarts_get (len cs ov : ℕ) (hlt : ov < cs) :
    ∀ n i, len - i ≤ n →
      ∀ k (hk : k < (chunkStarts len cs ov hlt i).length),
        (chunkStarts len cs ov hlt i).get ⟨k, hk⟩ = i + k * (cs - ov) := by
  intro n
  induction n with
  | zero =>
    intro i h k hk
    have hbase : len ≤ i + cs := by omega
    have hs : chunkStarts len cs ov hlt i = [i] := by
      rw [chunkStarts.eq_def, if_pos hbase]
    rcases k with _ | k
    · simp [hs]
    · rw [hs] at hk
      simp at hk
  | succ n ih =>
    intro i h k hk
    by_cases hb : len ≤ i + cs
    · have hs : chunkStarts len cs ov hlt i = [i] := by
        rw [chunkStarts.eq_def, if_pos hb]
      rcases k with _ | k
      · simp [hs]
      · rw [hs] at hk
        simp at hk
    · have hs : chunkStarts len cs ov hlt i =
          i :: chunkStarts len cs ov hlt (i + (cs - ov)) := by
        rw [chunkStarts.eq_def, if_neg hb]
      rcases k with _ | k
      · simp [hs]
      · have hk2 : k < (chunkStarts len cs ov hlt (i + (cs - ov))).length := by
          rw [hs] at hk
          simpa using hk
        have hrec := ih (i + (cs - ov)) (by omega) k hk2
        have hget : (chunkStarts len cs ov hlt i).get ⟨k + 1, hk⟩ =
            (chunkStarts len cs ov hlt (i + (cs - ov))).get ⟨k, hk2⟩ := by
          rw [List.get_of_eq hs]
          rfl
        rw [hget, hrec]
        ring

theorem chunkGo_reconstruct (words : List Str) (cs ov : ℕ) (hlt : ov < cs)
    (hg : GoodWords words) :
    ∀ n i, words.length - i ≤ n → i < words.length →
      ((chunkGo words cs ov hlt i).map (fun c => (pySplit c).drop ov)).flatten
        = words.drop (i + ov) := by
  intro n
  induction n with
  | zero => intro i h hi; omega
  | succ n ih =>
    intro i h hi
    have hcs : 0 < cs := by omega
    obtain ⟨hkeep, _⟩ := chunkKeep_eq words cs i hg hi hcs
    have hsplitwin : pySplit (joinWords ((words.drop i).take cs)) =
        (words.drop i).take cs :=
      pySplit_joinWords _ (goodWords_take _ (goodWords_drop _ hg))
    rw [chunkGo.eq_def]
    by_cases hb : words.length ≤ i + cs
    · rw [if_pos hb, hkeep]
      simp only [List.map_cons, List.map_nil, List.flatten_cons, List.flatten_nil,
        List.append_nil]
      rw [hsplitwin]
      rw [List.take_of_length_le (by rw [List.length_drop]; omega)]
      rw [List.drop_drop]
    · rw [if_neg hb, hkeep]
      rw [List.map_append, List.flatten_append]
      simp only [List.map_cons, List.map_nil, List.flatten_cons, List.flatten_nil,
        List.append_nil]
      rw [hsplitwin]
      rw [ih (i + (cs - ov)) (by omega) (by omega)]
      rw [List.drop_take, List.drop_drop]
      have key : words.drop (i + (cs - ov) + ov) =
          (words.drop (i + ov)).drop (cs - ov) := by
        rw [List.drop_drop]
        congr 1
        omega
      rw [key]
      exact List.take_append_drop _ _

theorem splitOnP_piece_subset (l : Str) :
    ∀ w ∈ l.splitOnP wsChar, ∀ c ∈ w, c ∈ l := by
  induction l with
  | nil =>
    intro w hw c hc
    rw [List.splitOnP_nil, List.mem_singleton] at hw
    subst hw
    exact absurd hc (List.not_mem_nil c)
  | cons x xs ih =>
    intro w hw c hc
    rw [List.splitOnP_cons] at hw
    by_cases hx : wsChar x
    · rw [if_pos hx, List.mem_cons] at hw
      rcases hw with hw | hw
      · subst hw; exact absurd hc (List.not_mem_nil c)
      · exact List.mem_cons_of_mem _ (ih w hw c hc)
    · rw [if_neg hx] at hw
      rcases hxs : xs.splitOnP wsChar with _ | ⟨h0, t0⟩
      · exact absurd hxs (List.splitOnP_ne_nil _ xs)
      · rw [hxs, List.modifyHead_cons, List.mem_cons] at hw
        rcases hw with hw | hw
        · subst hw
          rw [List.mem_cons] at hc
          rcases hc with hc | hc
          · subst hc; exact List.mem_cons_self _ _
          · refine List.mem_cons_of_mem _
              (ih h0 (by rw [hxs]; exact List.mem_cons_self _ _) c hc)
        · exact List.mem_cons_of_mem _
            (ih w (by rw [hxs]; exact List.mem_cons_of_mem _ hw) c hc)

theorem pySplit_nil_of_strip_nil (l : Str) (h : pyStrip l = []) :
    pySplit l = [] := by
  by_contra hne
  obtain ⟨w, hw⟩ := List.exists_mem_of_ne_nil _ hne
  obtain ⟨hwne, hwc⟩ := goodWords_pySplit l w hw
  obtain ⟨c, hc⟩ := List.exists_mem_of_ne_nil _ hwne
  have hcl : c ∈ l := by
    unfold pySplit at hw
    rw [List.mem_filter] at hw
    exact splitOnP_piece_subset l w hw.1 c hc
  have := (pyStrip_eq_nil_iff l).mp h c hcl
  rw [hwc c hc] at this
  exact Bool.false_ne_true this

/-! ## Claim C3 -/

/-- C3: for every configuration with `overlap ≥ chunk_size` (non-positive
stride) and every input text, `chunk_text` terminates with a well-defined
outcome: either a normal result (`[]` or the single whole-text chunk), or
the explicit `ValueError` rejection that `range` raises on a zero stride —
it never loops forever. -/
theorem chunk_text_degenerate_total (text : Str) (cs ov : ℕ) (h : cs ≤ ov) :
    chunk_text text cs ov = .ok [] ∨ chunk_text text cs ov = .ok [text] ∨
      (ov = cs ∧ chunk_text text cs ov = .error rangeZeroMsg) := by
  unfold chunk_text
  by_cases h1 : pyStrip text = []
  · rw [if_pos h1]
    exact Or.inl rfl
  · rw [if_neg h1]
    by_cases h2 : (pySplit text).length ≤ cs
    · rw [if_pos h2]
      exact Or.inr (Or.inl rfl)
    · rw [if_neg h2]
      have hlt : ¬ ov < cs := by omega
      rw [dif_neg hlt]
      by_cases h3 : ov = cs
      · rw [if_pos h3]
        exact Or.inr (Or.inr ⟨h3, rfl⟩)
      · rw [if_neg h3]
        exact Or.inl rfl

/-- Witness for C3 at a concrete degenerate configuration
(`chunk_size = 1 = overlap`, three-word text: the zero-stride rejection). -/
theorem chunk_text_degenerate_total_witness :
    1 ≤ 1 ∧ (chunk_text (("a b c").toList) 1 1 = .ok [] ∨
      chunk_text (("a b c").toList) 1 1 = .ok [("a b c").toList] ∨
      (1 = 1 ∧ chunk_text (("a b c").toList) 1 1 = .error rangeZeroMsg)) :=
  ⟨by decide, chunk_text_degenerate_total (("a b c").toList) 1 1 (by decide)⟩

/-! ## Claim C2 -/

/-- C2 counterexample: the whitespace-only text `" "` has word count
`0 ≤ max_words`, yet the chunker returns the empty chunk list, not one
chunk equal to the whole text as the claim states. -/
theorem chunk_text_blank_counterexample :
    (pySplit ([' '])).length ≤ 500 ∧ chunk_text ([' ']) 500 50 = .ok [] ∧
      chunk_text ([' ']) 500 50 ≠ .ok [[' ']] := by
  refine ⟨by decide, by decide, by decide⟩

/-- C2 (amended): for `overlap < max_words`: a whitespace-only text yields
no chunks; any other text of at most `max_words` words yields exactly one
chunk, the whole text; a longer text yields windows of (at most)
`max_words` words whose start indices advance by `max_words - overlap`
per step, and re-concatenating the chunk word lists after dropping each
later chunk's first `overlap` words reconstructs the original word
sequence in order. -/
theorem chunk_text_chunker_spec (text : Str) (cs ov : ℕ) (hlt : ov < cs) :
    (pyStrip text = [] → chunk_text text cs ov = .ok []) ∧
    (pyStrip text ≠ [] → (pySplit text).length ≤ cs →
      chunk_text text cs ov = .ok [text]) ∧
    (cs < (pySplit text).length →
      ∃ c rest, chunk_text text cs ov = .ok (c :: rest) ∧
        (∀ k (hk : k < (c :: rest).length),
          pySplit ((c :: rest).get ⟨k, hk⟩) =
            ((pySplit text).drop (k * (cs - ov))).take cs) ∧
        pySplit c ++ (rest.map (fun d => (pySplit d).drop ov)).flatten
          = pySplit text) := by
  refine ⟨?_, ?_, ?_⟩
  · intro h1
    unfold chunk_text
    rw [if_pos h1]
  · intro h1 h2
    unfold chunk_text
    rw [if_neg h1, if_pos h2]
  · intro h2
    have h1 : pyStrip text ≠ [] := by
      intro habs
      have := pySplit_nil_of_strip_nil text habs
      rw [this] at h2
      simp at h2
    have h2x : ¬ (pySplit text).length ≤ cs := by omega
    have hg : GoodWords (pySplit text) := goodWords_pySplit text
    have h0len : 0 < (pySplit text).length := by omega
    have hcs : 0 < cs := by omega
    obtain ⟨hkeep0, _⟩ := chunkKeep_eq (pySplit text) cs 0 hg h0len hcs
    have hchunks_eq : chunkGo (pySplit text) cs ov hlt 0 =
        joinWords ((pySplit text).take cs)
          :: chunkGo (pySplit text) cs ov hlt (0 + (cs - ov)) := by
      rw [chunkGo.eq_def,
        if_neg (show ¬ (pySplit text).length ≤ 0 + cs by omega), hkeep0,
        List.drop_zero]
      rfl
    refine ⟨joinWords ((pySplit text).take cs),
      chunkGo (pySplit text) cs ov hlt (0 + (cs - ov)), ?_, ?_, ?_⟩
    · unfold chunk_text
      rw [if_neg h1, if_neg h2x, dif_pos hlt, hchunks_eq]
    · rw [← hchunks_eq]
      rw [chunkGo_eq_map (pySplit text) cs ov hlt hg (pySplit text).length 0
        (by omega) h0len]
      intro k hk
      have hk2 : k < (chunkStarts (pySplit text).length cs ov hlt 0).length := by
        simpa using hk
      rw [List.get_eq_getElem, List.getElem_map]
      have hstart : (chunkStarts (pySplit text).length cs ov hlt 0)[k] =
          0 + k * (cs - ov) := by
        have hg2 := chunkStarts_get (pySplit text).length cs ov hlt
          (pySplit text).length 0 (by omega) k hk2
        rw [List.get_eq_getElem] at hg2
        exact hg2
      rw [hstart]
      have hjlt : 0 + k * (cs - ov) < (pySplit text).length := by
        refine chunkStarts_mem_lt (pySplit text).length cs ov hlt
          (pySplit text).length 0 (by omega) h0len _ ?_
        rw [← hstart]
        exact List.getElem_mem _
      rw [pySplit_joinWords _ (goodWords_take _ (goodWords_drop _ hg))]
      rw [Nat.zero_add]
    · rw [pySplit_joinWords _ (goodWords_take _ hg)]
      have hs_lt : 0 + (cs - ov) < (pySplit text).length := by omega
      rw [chunkGo_reconstruct (pySplit text) cs ov hlt hg
        ((pySplit text).length - (0 + (cs - ov))) (0 + (cs - ov))
        (by omega) hs_lt]
      have he : 0 + (cs - ov) + ov = cs := by omega
      rw [he]
      exact List.take_append_drop _ _

/-- Witness for C2 (amended) on the text `"a b c"` with window 2 and
overlap 1: hypotheses are discharged concretely and the long-text branch
is exercised. -/
theorem chunk_text_chunker_spec_witness :
    2 < (pySplit (("a b c").toList)).length ∧
      (∃ c rest, chunk_text (("a b c").toList) 2 1 = .ok (c :: rest) ∧
        (∀ k (hk : k < (c :: rest).length),
          pySplit ((c :: rest).get ⟨k, hk⟩) =
            ((pySplit (("a b c").toList)).drop (k * (2 - 1))).take 2) ∧
        pySplit c ++ (rest.map (fun d => (pySplit d).drop 1)).flatten
          = pySplit (("a b c").toList)) :=
  ⟨by decide,
    (chunk_text_chunker_spec (("a b c").toList) 2 1 (by decide)).2.2 (by decide)⟩

/-! ## Claim C1 -/

theorem qdrant_search_length_le (sim : Vec → Vec → ℚ) (store : List StoredPoint)
    (qv : Vec) (limit : ℕ) (thr : ℚ) (fc : Dict) :
    (qdrant_search sim store qv limit thr fc).length ≤ limit := by
  unfold qdrant_search
  exact List.length_take_le _ _

theorem qdrant_search_score_ge (sim : Vec → Vec → ℚ) (store : List StoredPoint)
    (qv : Vec) (limit : ℕ) (thr : ℚ) (fc : Dict) :
    ∀ r ∈ qdrant_search sim store qv limit thr fc, thr ≤ r.2 := by
  intro r hr
  unfold qdrant_search at hr
  have h1 := List.mem_of_mem_take hr
  have h2 := (List.perm_insertionSort scoreGe _).mem_iff.mp h1
  rw [List.mem_filter] at h2
  exact of_decide_eq_true h2.2

theorem qdrant_search_sorted (sim : Vec → Vec → ℚ) (store : List StoredPoint)
    (qv : Vec) (limit : ℕ) (thr : ℚ) (fc : Dict) :
    List.Sorted scoreGe (qdrant_search sim store qv limit thr fc) := by
  unfold qdrant_search
  exact (List.sorted_insertionSort scoreGe _).sublist (List.take_sublist _ _)

/-- C1: a whitespace-only (or empty) query returns the empty result list
without ever invoking the embedder; any other query invokes the embedder
and yields at most `limit` results, none with score below
`score_threshold`, ordered by descending similarity score. -/
theorem search_similar_search_spec (sim : Vec → Vec → ℚ) (embed : Str → Vec)
    (store : List StoredPoint) (query : Str) (limit : ℕ) (thr : ℚ) (fc : Dict) :
    (pyStrip query = [] →
      search_similar sim embed store query limit thr fc = ([], false)) ∧
    (pyStrip query ≠ [] →
      (search_similar sim embed store query limit thr fc).2 = true ∧
      (search_similar sim embed store query limit thr fc).1.length ≤ limit ∧
      (∀ h ∈ (search_similar sim embed store query limit thr fc).1,
        thr ≤ h.score) ∧
      List.Sorted (fun a b : SearchHit => b.score ≤ a.score)
        (search_similar sim embed store query limit thr fc).1) := by
  constructor
  · intro h
    unfold search_similar
    rw [if_pos h]
  · intro h
    unfold search_similar
    rw [if_neg h]
    by_cases hall : (qdrant_search sim store (embed query) limit thr fc).all
        (fun r => (pyGet r.1 kText).isSome)
    · rw [if_pos hall]
      refine ⟨rfl, ?_, ?_, ?_⟩
      · rw [List.length_map]
        exact qdrant_search_length_le sim store (embed query) limit thr fc
      · intro hit hhit
        rw [List.mem_map] at hhit
        obtain ⟨r, hr, hfmt⟩ := hhit
        have := qdrant_search_score_ge sim store (embed query) limit thr fc r hr
        rw [← hfmt]
        exact this
      · refine List.Pairwise.map formatHit ?_
          (qdrant_search_sorted sim store (embed query) limit thr fc)
        intro a b hab
        exact hab
    · rw [if_neg hall]
      exact ⟨rfl, by simp, by simp, List.sorted_nil⟩

/-- Witness for C1 on a concrete non-blank query (empty store, limit 2,
threshold 9/10). -/
theorem search_similar_search_spec_witness :
    pyStrip (("hi").toList) ≠ [] ∧
      ((search_similar simStub embedStub [] (("hi").toList) 2 (9/10) []).2 = true ∧
      (search_similar simStub embedStub [] (("hi").toList) 2 (9/10) []).1.length ≤ 2 ∧
      (∀ h ∈ (search_similar simStub embedStub [] (("hi").toList) 2 (9/10) []).1,
        (9/10 : ℚ) ≤ h.score) ∧
      List.Sorted (fun a b : SearchHit => b.score ≤ a.score)
        (search_similar simStub embedStub [] (("hi").toList) 2 (9/10) []).1) :=
  ⟨by decide,
    (search_similar_search_spec simStub embedStub [] (("hi").toList) 2 (9/10) []).2
      (by decide)⟩

/-! ## Claim C5 -/

theorem lookup_eq_none_of_keys_ne (k : Str) :
    ∀ A : Dict, (∀ p ∈ A, p.1 ≠ k) → List.lookup k A = none
  | [], _ => rfl
  | (a, v) :: A, h => by
    have ha : a ≠ k := h (a, v) (List.mem_cons_self _ _)
    have hk : (k == a) = false := by
      rw [beq_eq_false_iff_ne]
      exact fun he => ha he.symm
    simp only [List.lookup_cons, hk]
    exact lookup_eq_none_of_keys_ne k A
      (fun p hp => h p (List.mem_cons_of_mem _ hp))

theorem lookup_append_or (k : Str) :
    ∀ A B : Dict, List.lookup k (A ++ B) = (List.lookup k A).or (List.lookup k B)
  | [], B => rfl
  | (a, v) :: A, B => by
    by_cases hk : (k == a) = true
    · simp only [List.cons_append, List.lookup_cons, hk, Option.or]
    · have hk2 : (k == a) = false := by
        rwa [Bool.not_eq_true] at hk
      simp only [List.cons_append, List.lookup_cons, hk2]
      exact lookup_append_or k A B

theorem pyGet_append (A B : Dict) (k : Str) :
    pyGet (A ++ B) k = (pyGet B k).or (pyGet A k) := by
  unfold pyGet
  rw [List.reverse_append]
  exact lookup_append_or k B.reverse A.reverse

theorem basePayload_keys (docId : Str) (md : DocMeta) (nowTime : Str)
    (total i : ℕ) (chunk : Str) :
    ∀ p ∈ basePayload docId md nowTime total i chunk, p.1 ∈ reservedKeys := by
  intro p hp
  unfold basePayload at hp
  simp only [List.mem_cons, List.not_mem_nil, or_false] at hp
  rcases hp with rfl | rfl | rfl | rfl | rfl | rfl | rfl <;> simp [reservedKeys]

theorem payloadFor_reserved (docId : Str) (md : DocMeta) (nowTime : Str)
    (total i : ℕ) (chunk : Str)
    (hdisj : ∀ kv ∈ md.extra_metadata.getD [], kv.1 ∉ reservedKeys) :
    ∀ k, k ∈ reservedKeys →
      pyGet (payloadFor docId md nowTime total i chunk) k =
        pyGet (basePayload docId md nowTime total i chunk) k := by
  intro k hkres
  unfold payloadFor
  rw [pyGet_append]
  have hex : pyGet (md.extra_metadata.getD []) k = none := by
    unfold pyGet
    refine lookup_eq_none_of_keys_ne k _ ?_
    intro p hp
    intro he
    exact hdisj p (List.mem_reverse.mp hp) (he ▸ hkres)
  rw [hex]
  rfl

theorem payloadFor_extra (docId : Str) (md : DocMeta) (nowTime : Str)
    (total i : ℕ) (chunk : Str) :
    ∀ k, k ∉ reservedKeys →
      pyGet (payloadFor docId md nowTime total i chunk) k =
        pyGet (md.extra_metadata.getD []) k := by
  intro k hkn
  unfold payloadFor
  rw [pyGet_append]
  have hbase : pyGet (basePayload docId md nowTime total i chunk) k = none := by
    unfold pyGet
    refine lookup_eq_none_of_keys_ne k _ ?_
    intro p hp
    intro he
    exact hkn (he ▸ basePayload_keys docId md nowTime total i chunk p
      (List.mem_reverse.mp hp))
  rw [hbase]
  cases pyGet (md.extra_metadata.getD []) k <;> rfl

/-- C5 counterexample: a caller-supplied extra metadata key `"chunk_id"`
overrides the chunk ordinal in the stored payload, so a successfully added
single-chunk document carries ordinal 7 instead of the contiguous range
`0..0` the claim demands. -/
theorem add_document_collision_counterexample :
    ((add_document embedStub [] (("d1").toList) (("hello").toList)
        ⟨none, none, none, none, none, some [(kChunkId, PyVal.n 7)]⟩).1.success
      = true) ∧
    ((add_document embedStub [] (("d1").toList) (("hello").toList)
        ⟨none, none, none, none, none, some [(kChunkId, PyVal.n 7)]⟩).2.map
      (fun p => pyGet p.payload kChunkId)) = [some (PyVal.n 7)] :=
  ⟨by decide, by decide⟩

/-- C5 (amended): for a successful add whose extra metadata keys avoid the
seven reserved payload keys, every chunk becomes exactly one stored point;
each point's payload carries the chunk text, its ordinal, the document id,
document filename, file type, upload timestamp and total sibling chunk
count, and answers every non-reserved key exactly as the caller-supplied
extra metadata dict does; the stored chunk ordinals form the contiguous
range `0..chunk_count-1`. -/
theorem add_document_payload_spec (embed : Str → Vec) (nowTime docId text : Str)
    (md : DocMeta) (chunks : List Str)
    (hstrip : pyStrip text ≠ [])
    (hch : chunk_text text (md.chunk_size.getD 500) (md.chunk_overlap.getD 50)
      = .ok chunks)
    (hne : chunks ≠ [])
    (hdisj : ∀ kv ∈ md.extra_metadata.getD [], kv.1 ∉ reservedKeys) :
    (add_document embed nowTime docId text md).1.success = true ∧
    (add_document embed nowTime docId text md).1.chunks_added = chunks.length ∧
    (add_document embed nowTime docId text md).2.length = chunks.length ∧
    (∀ i, ∀ hi : i < chunks.length, ∀ hp : i < (add_document embed nowTime docId text md).2.length,
      pyGet ((add_document embed nowTime docId text md).2.get ⟨i, hp⟩).payload kText
          = some (PyVal.s (chunks.get ⟨i, hi⟩)) ∧
      pyGet ((add_document embed nowTime docId text md).2.get ⟨i, hp⟩).payload kChunkId
          = some (PyVal.n i) ∧
      pyGet ((add_document embed nowTime docId text md).2.get ⟨i, hp⟩).payload kDocumentId
          = some (PyVal.s docId) ∧
      pyGet ((add_document embed nowTime docId text md).2.get ⟨i, hp⟩).payload kDocumentName
          = some (PyVal.s (md.filename.getD unknownStr)) ∧
      pyGet ((add_document embed nowTime docId text md).2.get ⟨i, hp⟩).payload kFileType
          = some (PyVal.s (md.file_type.getD unknownStr)) ∧
      pyGet ((add_document embed nowTime docId text md).2.get ⟨i, hp⟩).payload kUploadTime
          = some (PyVal.s (md.upload_time.getD nowTime)) ∧
      pyGet ((add_document embed nowTime docId text md).2.get ⟨i, hp⟩).payload kChunkCount
          = some (PyVal.n chunks.length) ∧
      (∀ k, k ∉ reservedKeys →
        pyGet ((add_document embed nowTime docId text md).2.get ⟨i, hp⟩).payload k
          = pyGet (md.extra_metadata.getD []) k)) ∧
    ((add_document embed nowTime docId text md).2.map
        (fun p => pyGet p.payload kChunkId))
      = (List.range chunks.length).map (fun i => some (PyVal.n i)) := by
  have hadd : add_document embed nowTime docId text md =
      (⟨true, none, chunks.length, some docId, text.length⟩,
       (chunks.zip (chunks.map embed)).enum.map
         (fun p => ⟨p.2.2, payloadFor docId md nowTime chunks.length p.1 p.2.1⟩)) := by
    unfold add_document
    rw [if_neg hstrip, hch]
    simp only [addDocChunks]
    rw [if_neg (by simpa [List.isEmpty_iff] using hne)]
  have hzlen : ((chunks.zip (chunks.map embed)).enum).length = chunks.length := by
    simp [List.enum_length, List.length_zip, List.length_map]
  refine ⟨by rw [hadd], by rw [hadd], ?_, ?_, ?_⟩
  · rw [hadd]
    simp only [List.length_map]
    exact hzlen
  · intro i hi hp
    have hget : (add_document embed nowTime docId text md).2.get ⟨i, hp⟩ =
        ⟨embed (chunks.get ⟨i, hi⟩),
         payloadFor docId md nowTime chunks.length i (chunks.get ⟨i, hi⟩)⟩ := by
      rw [List.get_of_eq (congrArg Prod.snd hadd)]
      simp only [List.get_eq_getElem, List.getElem_map, List.getElem_enum,
        List.getElem_zip]
    rw [hget]
    have hres := payloadFor_reserved docId md nowTime chunks.length i
      (chunks.get ⟨i, hi⟩) hdisj
    refine ⟨?_, ?_, ?_, ?_, ?_, ?_, ?_, ?_⟩
    · rw [hres kText (by simp [reservedKeys])]; rfl
    · rw [hres kChunkId (by simp [reservedKeys])]; rfl
    · rw [hres kDocumentId (by simp [reservedKeys])]; rfl
    · rw [hres kDocumentName (by simp [reservedKeys])]; rfl
    · rw [hres kFileType (by simp [reservedKeys])]; rfl
    · rw [hres kUploadTime (by simp [reservedKeys])]; rfl
    · rw [hres kChunkCount (by simp [reservedKeys])]; rfl
    · exact payloadFor_extra docId md nowTime chunks.length i (chunks.get ⟨i, hi⟩)
  · rw [hadd]
    refine List.ext_get ?_ ?_
    · simp [List.length_map, List.length_range, hzlen]
    · intro n h1 h2
      have hn : n < chunks.length := by
        simpa [List.length_map, hzlen] using h1
      simp only [List.get_eq_getElem, List.getElem_map, List.getElem_enum,
        List.getElem_zip, List.getElem_range]
      rw [payloadFor_reserved docId md nowTime chunks.length n
        (chunks[n]) hdisj kChunkId (by simp [reservedKeys])]
      rfl

/-- Witness for C5 (amended) on a one-chunk document with no extra
metadata. -/
theorem add_document_payload_spec_witness :
    (add_document embedStub [] (("d1").toList) (("hello").toList)
        ⟨none, none, none, none, none, none⟩).1.success = true ∧
    ((add_document embedStub [] (("d1").toList) (("hello").toList)
        ⟨none, none, none, none, none, none⟩).2.map
      (fun p => pyGet p.payload kChunkId))
      = (List.range ([("hello").toList] : List Str).length).map
          (fun i => some (PyVal.n i)) := by
  have h := add_document_payload_spec embedStub [] (("d1").toList)
    (("hello").toList) ⟨none, none, none, none, none, none⟩ [("hello").toList]
    (by decide) (by decide) (by decide) (by simp)
  exact ⟨h.1, h.2.2.2.2⟩

/-! ## Claim C8 -/

theorem docxText_strip_nil_iff (paras : List Str) (tables : List (List (List Str))) :
    pyStrip (docxParaText paras ++ docxTablesText tables) = [] ↔
      ((∀ p ∈ paras, pyStrip p = []) ∧ tables = []) := by
  rw [pyStrip_eq_nil_iff]
  constructor
  · intro h
    constructor
    · intro p hp
      by_cases hps : pyStrip p = []
      · exact hps
      · rw [pyStrip_eq_nil_iff]
        intro c hc
        refine h c ?_
        rw [List.mem_append]
        left
        unfold docxParaText
        refine List.mem_flatten.mpr ⟨p ++ [('\n')], ?_, ?_⟩
        · rw [List.mem_map]
          refine ⟨p, ?_, rfl⟩
          rw [List.mem_filter]
          refine ⟨hp, ?_⟩
          have hpe : (pyStrip p).isEmpty = false := by
            rw [List.isEmpty_eq_false]
            exact hps
          simp [hpe]
        · rw [List.mem_append]
          left
          exact hc
    · cases tables with
      | nil => rfl
      | cons t0 rest =>
        exfalso
        have hdash : ('-') ∈ docxParaText paras ++ docxTablesText (t0 :: rest) := by
          rw [List.mem_append]
          right
          have hshape : docxTablesText (t0 :: rest) =
              (tableMarkerPre ++ natToStr 1 ++ tableMarkerPost
                ++ (t0.map docxRowLine).flatten)
              ++ ((rest.enumFrom 1).map
                  (fun p => docxTableText (p.1 + 1) p.2)).flatten := rfl
          rw [hshape]
          rw [List.mem_append]
          left
          rw [List.mem_append]
          left
          rw [List.mem_append]
          left
          rw [List.mem_append]
          left
          decide
        have hws := h ('-') hdash
        exact absurd hws (by decide)
  · rintro ⟨h1, h2⟩
    subst h2
    intro c hc
    have hfil : paras.filter (fun p => !(pyStrip p).isEmpty) = [] := by
      rw [List.filter_eq_nil_iff]
      intro a ha
      simp [h1 a ha]
    unfold docxParaText at hc
    rw [hfil] at hc
    have hnil : docxTablesText [] = [] := rfl
    rw [hnil] at hc
    simp at hc

/-- C8: table rendering in `_extract_docx_text` agrees with the
spec-side rendering (marker plus one line per row with non-empty cells
joined by `" | "`, rows without content contributing no line), and the
extraction fails exactly when no text was collected from either the
paragraphs or the tables. -/
theorem extract_docx_text_table_spec (paras : List Str)
    (tables : List (List (List Str))) :
    docxTablesText tables = specTablesRender tables ∧
    (extract_docx_text paras tables = .error docxNoTextMsg ↔
      ((∀ p ∈ paras, pyStrip p = []) ∧ tables = [])) ∧
    (∀ body md2, extract_docx_text paras tables = .ok (body, md2) →
      body = pyStrip (docxParaText paras ++ specTablesRender tables)) := by
  have hrender : docxTablesText tables = specTablesRender tables := rfl
  refine ⟨hrender, ?_, ?_⟩
  · constructor
    · intro he
      by_cases hcond : pyStrip (docxParaText paras ++ docxTablesText tables) = []
      · exact (docxText_strip_nil_iff paras tables).mp hcond
      · exfalso
        unfold extract_docx_text at he
        rw [if_neg hcond] at he
        simp at he
    · rintro ⟨h1, h2⟩
      unfold extract_docx_text
      rw [if_pos ((docxText_strip_nil_iff paras tables).mpr ⟨h1, h2⟩)]
  · intro body md2 hok
    by_cases hcond : pyStrip (docxParaText paras ++ docxTablesText tables) = []
    · unfold extract_docx_text at hok
      rw [if_pos hcond] at hok
      simp at hok
    · unfold extract_docx_text at hok
      rw [if_neg hcond] at hok
      simp only [Except.ok.injEq, Prod.mk.injEq] at hok
      rw [← hok.1, hrender]

/-- Witness for C8 on a one-paragraph document without tables. -/
theorem extract_docx_text_table_spec_witness :
    extract_docx_text [("hi").toList] [] = .ok (("hi").toList,
      [(kParagraphs, PyVal.n 1), (kTables, PyVal.n 0),
       (kMethod, PyVal.s pythonDocxStr)]) ∧
    ("hi").toList = pyStrip (docxParaText [("hi").toList] ++ specTablesRender []) :=
  ⟨by decide,
    (extract_docx_text_table_spec [("hi").toList] []).2.2 (("hi").toList)
      [(kParagraphs, PyVal.n 1), (kTables, PyVal.n 0),
       (kMethod, PyVal.s pythonDocxStr)] (by decide)⟩

/-! ## Claim C10 -/

theorem pyGet_txtMeta_encoding (enc t : Str) :
    pyGet (txtMeta enc t) kEncoding = some (PyVal.s enc) := rfl

/-- C10: for every non-empty `.txt` file and arbitrary external codecs,
the encoding-fallback loop always succeeds at or before latin-1 (which
decodes every byte sequence), the reported encoding is one of utf-8,
utf-16 or latin-1 — never cp1252 or iso-8859-1 — and the
`"Failed to decode text file with any supported encoding"` branch is
unreachable. -/
theorem extract_txt_text_latin1_spec (u8 u16 cp iso : List Byte → Option Str)
    (bs : List Byte) (h : bs ≠ []) :
    (∃ t md2, extract_txt_text u8 u16 cp iso bs = .ok (t, md2) ∧
      (pyGet md2 kEncoding = some (PyVal.s encUtf8) ∨
       pyGet md2 kEncoding = some (PyVal.s encUtf16) ∨
       pyGet md2 kEncoding = some (PyVal.s encLatin1))) ∧
    extract_txt_text u8 u16 cp iso bs ≠ .error decodeErrMsg := by
  have hbs : bs.isEmpty = false := by
    rw [List.isEmpty_eq_false]
    exact h
  unfold extract_txt_text
  rw [if_neg (by simp [hbs])]
  cases hu8 : u8 bs with
  | some t =>
    simp only [tryEncodings, hu8]
    exact ⟨⟨pyStrip t, txtMeta encUtf8 t, rfl,
      Or.inl (pyGet_txtMeta_encoding encUtf8 t)⟩, by simp⟩
  | none =>
    simp only [tryEncodings, hu8]
    cases hu16 : u16 bs with
    | some t =>
      simp only [tryEncodings, hu16]
      exact ⟨⟨pyStrip t, txtMeta encUtf16 t, rfl,
        Or.inr (Or.inl (pyGet_txtMeta_encoding encUtf16 t))⟩, by simp⟩
    | none =>
      simp only [tryEncodings, hu16, latin1Decode]
      exact ⟨⟨pyStrip (bs.map (fun b => Char.ofNat b.val)),
        txtMeta encLatin1 (bs.map (fun b => Char.ofNat b.val)), rfl,
        Or.inr (Or.inr (pyGet_txtMeta_encoding encLatin1 _))⟩, by simp⟩

/-- Witness for C10 on a one-byte file with codecs that always fail:
decoding lands on latin-1. -/
theorem extract_txt_text_latin1_spec_witness :
    ([(0 : Byte)] : List Byte) ≠ [] ∧
    ((∃ t md2, extract_txt_text decStub decStub decStub decStub [(0 : Byte)]
        = .ok (t, md2) ∧
      (pyGet md2 kEncoding = some (PyVal.s encUtf8) ∨
       pyGet md2 kEncoding = some (PyVal.s encUtf16) ∨
       pyGet md2 kEncoding = some (PyVal.s encLatin1))) ∧
    extract_txt_text decStub decStub decStub decStub [(0 : Byte)]
      ≠ .error decodeErrMsg) :=
  ⟨by decide, extract_txt_text_latin1_spec decStub decStub decStub decStub
    [(0 : Byte)] (by decide)⟩

/-! ## Claim C9 -/

/-- C9: `extract_text` never returns partial text on failure — whenever
`success` is false the `text` field is empty and the `error` field is a
string; whenever `success` is true the text is non-empty after stripping
and the `error` field is `None`. -/
theorem extract_text_result_invariant
    (pdfF docxF : List Byte → Except Str (Str × Dict))
    (u8 u16 cp iso : List Byte → Option Str) (maxMB : ℕ) (bs : List Byte)
    (filename : Str) :
    ((extract_text pdfF docxF u8 u16 cp iso maxMB bs filename).success = false →
      (extract_text pdfF docxF u8 u16 cp iso maxMB bs filename).text = [] ∧
      (extract_text pdfF docxF u8 u16 cp iso maxMB bs filename).error ≠ none) ∧
    ((extract_text pdfF docxF u8 u16 cp iso maxMB bs filename).success = true →
      pyStrip (extract_text pdfF docxF u8 u16 cp iso maxMB bs filename).text ≠ [] ∧
      (extract_text pdfF docxF u8 u16 cp iso maxMB bs filename).error = none) := by
  unfold extract_text
  by_cases hv : validate_file_type filename
  · by_cases hsz : validate_file_size bs.length maxMB
    · cases hdis : dispatchExtract pdfF docxF u8 u16 cp iso
          (lowerStr (pathSuffix filename)) bs with
      | error e =>
        simp [hv, hsz, hdis, mkExtractFail]
      | ok p =>
        obtain ⟨t, md2⟩ := p
        by_cases hst : (pyStrip t).isEmpty
        · simp [hv, hsz, hdis, hst, mkExtractFail]
        · simp only [hv, hsz, hdis, hst, Bool.not_true, Bool.not_false,
            if_true, if_false, Bool.false_eq_true, Bool.true_eq_false]
          refine ⟨fun hfalse => hfalse.elim, fun _ => ⟨?_, trivial⟩⟩
          intro habs
          exact hst (by simp [habs])
    · simp [hv, hsz, mkExtractFail]
  · simp [hv, mkExtractFail]

/-- Witness for C9 at a concrete failing input (unsupported extension). -/
theorem extract_text_result_invariant_witness :
    (extract_text pdfStub pdfStub decStub decStub decStub decStub 50 []
      (("a.exe").toList)).text = [] ∧
    (extract_text pdfStub pdfStub decStub decStub decStub decStub 50 []
      (("a.exe").toList)).error ≠ none :=
  (extract_text_result_invariant pdfStub pdfStub decStub decStub decStub decStub
    50 [] (("a.exe").toList)).1 (by decide)

/-! ## Claim C4 -/

/-- C4 (code behaviour at the failing input): the txt helper treats a
zero-byte file as valid and returns empty text without raising — its own
comment says an empty file is valid for TXT — but top-level `extract_text`
then classifies that empty text as a failure with the no-text error, with
no text returned.  A whitespace-only decode of any format likewise fails. -/
theorem extract_text_zero_byte_txt_behavior :
    extract_txt_text decStub decStub decStub decStub []
      = .ok ([], txtMeta encUtf8 []) ∧
    (extract_text pdfStub pdfStub decStub decStub decStub decStub 50 []
      (("empty.txt").toList)).success = false ∧
    (extract_text pdfStub pdfStub decStub decStub decStub decStub 50 []
      (("empty.txt").toList)).error = some noTextMsg ∧
    (extract_text pdfStub pdfStub decStub decStub decStub decStub 50 []
      (("empty.txt").toList)).text = [] ∧
    (extract_text pdfStub pdfStub wsDecStub decStub decStub decStub 50
      [(32 : Byte)] (("blank.txt").toList)).success = false ∧
    (extract_text pdfStub pdfStub wsDecStub decStub decStub decStub 50
      [(32 : Byte)] (("blank.txt").toList)).error = some noTextMsg :=
  ⟨by decide, by decide, by decide, by decide, by decide, by decide⟩

/-! ## Claim C7 -/

/-- C7: whenever the retrieved context texts are strings (always the case
for documents stored by this pipeline), a failing language-model call
makes `generate_response` return the visible error-message substitute and
leave the conversation history unchanged, while a successful call returns
the stripped answer and appends exactly `(query, answer)` to the history. -/
theorem generate_response_history_spec (env : Env) (store : List StoredPoint)
    (query : Str) (history : List (Str × Str)) (ts : List Str)
    (hctx : contextTexts env store query = some ts) :
    (∀ e, env.llm (sysPromptOf env store query) (userPromptOf query) = .error e →
      generate_response env store query history = (genErrPre ++ e, history)) ∧
    (∀ a, env.llm (sysPromptOf env store query) (userPromptOf query) = .ok a →
      generate_response env store query history
        = (pyStrip a, history ++ [(query, pyStrip a)])) := by
  constructor
  · intro e he
    unfold generate_response
    rw [hctx, he]
  · intro a ha
    unfold generate_response
    rw [hctx, ha]

/-- Witness for C7: with the always-failing LLM the error substitute is
returned and history stays empty; with the always-answering LLM the
stripped answer is appended. -/
theorem generate_response_history_spec_witness :
    generate_response envStub [] (("hi").toList) [] = (genErrPre ++ [], []) ∧
    generate_response envLlmOk [] (("hi").toList) []
      = (pyStrip ((" Hello ").toList),
         [((("hi").toList), pyStrip ((" Hello ").toList))]) :=
  ⟨(generate_response_history_spec envStub [] (("hi").toList) [] []
      (by decide)).1 [] (by decide),
   (generate_response_history_spec envLlmOk [] (("hi").toList) [] []
      (by decide)).2 ((" Hello ").toList) (by decide)⟩

/-! ## Claim C6 -/

theorem sub_of_append_right {α : Type} {a l t : List α} (h : a <:+: l) :
    a <:+: (l ++ t) := by
  obtain ⟨s, u, hs⟩ := h
  exact ⟨s, u ++ t, by rw [← hs]; simp [List.append_assoc]⟩

theorem succPhrase_in_success_line (r : Str) (h : isSuccessLine r = true) :
    succPhrase <:+: lowerStr r := by
  unfold isSuccessLine at h
  have hpre : r.take successPre.length = successPre := of_decide_eq_true h
  have hsplit : r = successPre ++ r.drop successPre.length := by
    conv_lhs => rw [← List.take_append_drop successPre.length r]
    rw [hpre]
  rw [hsplit]
  unfold lowerStr
  rw [List.map_append]
  refine sub_of_append_right ?_
  decide

/-- C6 counterexample: a batch consisting of one corrupted PDF named
`successfully processed.pdf` produces a single failure status line, yet
the success counter reports 1 success out of 1 and the summary takes the
success branch — the summary does not count exactly the successfully
processed files. -/
theorem process_documents_miscount_counterexample :
    countSuccessLines envStub
      [⟨("successfully processed.pdf").toList, [(1 : Byte)]⟩] = 1 ∧
    (∀ r ∈ statusLines envStub
      [⟨("successfully processed.pdf").toList, [(1 : Byte)]⟩],
      isSuccessLine r = false) ∧
    summaryMsg (countSuccessLines envStub
      [⟨("successfully processed.pdf").toList, [(1 : Byte)]⟩]) 1
      = summaryOk 1 1 :=
  ⟨by decide, by decide, by decide⟩

theorem isSuccessLine_errorProcessing (name e : Str) :
    isSuccessLine (errorProcessingMsg name e) = false := by
  unfold isSuccessLine
  rw [decide_eq_false_iff_not]
  intro habs
  obtain ⟨t, ht⟩ : ∃ t, errorProcessingMsg name e = ('❌') :: t := ⟨_, rfl⟩
  rw [ht] at habs
  have hh := congrArg List.head? habs
  have hchar : ('❌') = ('✅') := Option.some.inj hh
  exact absurd hchar (by decide)

/-- C6 (amended): every file of a non-empty batch gets exactly one status
line, computed independently from that file alone (one file's failure
never aborts the batch); the trailing summary counts the files whose
`process_single_document` status line contains the phrase "successfully
processed" case-insensitively — a file whose per-file `except` handler
produced the line (an empty upload) is never counted — and that count
equals the exact number of successfully processed files whenever no
failure line contains the phrase (in particular whenever filenames avoid
it); the output is the status lines joined by newlines followed by the
summary over that count. -/
theorem process_documents_batch_spec (env : Env) (files : List UploadFile)
    (hne : files ≠ []) :
    (statusLines env files).length = files.length ∧
    (∀ i, ∀ hi : i < files.length, ∀ hl : i < (statusLines env files).length,
      (statusLines env files).get ⟨i, hl⟩
        = statusLine env i (files.get ⟨i, hi⟩)) ∧
    (∀ i, ∀ f : UploadFile, f.bytes = [] → countedSuccess env i f = false) ∧
    ((∀ r ∈ statusLines env files, isSuccessLine r = false →
        ¬ (succPhrase <:+: lowerStr r)) →
      countSuccessLines env files
        = (statusLines env files).countP isSuccessLine) ∧
    process_documents env files
      = joinSep [('\n')] (statusLines env files)
        ++ summaryMsg (countSuccessLines env files) files.length := by
  refine ⟨?_, ?_, ?_, ?_, ?_⟩
  · unfold statusLines
    simp [List.length_map, List.enum_length]
  · intro i hi hl
    unfold statusLines
    simp only [List.get_eq_getElem, List.getElem_map, List.getElem_enum]
  · intro i f hf
    unfold countedSuccess
    rw [if_pos (by simp [hf])]
  · intro hnocoll
    unfold countSuccessLines statusLines
    rw [List.countP_map]
    refine List.countP_congr ?_
    intro p hp
    have hmem : statusLine env p.1 p.2 ∈ statusLines env files := by
      unfold statusLines
      exact List.mem_map.mpr ⟨p, hp, rfl⟩
    simp only [Function.comp]
    by_cases hb : p.2.bytes.isEmpty
    · have h1 : countedSuccess env p.1 p.2 = false := by
        unfold countedSuccess
        rw [if_pos hb]
      have h2 : statusLine env p.1 p.2
          = errorProcessingMsg p.2.filename emptyUploadMsg := by
        unfold statusLine
        rw [if_pos hb]
      rw [h1, h2, isSuccessLine_errorProcessing]
    · have h1 : countedSuccess env p.1 p.2 = decide (succPhrase <:+:
          lowerStr (process_single_document env p.2.bytes p.2.filename
            (env.docIdGen p.1))) := by
        unfold countedSuccess
        rw [if_neg hb]
      have h2 : statusLine env p.1 p.2
          = process_single_document env p.2.bytes p.2.filename
              (env.docIdGen p.1) := by
        unfold statusLine
        rw [if_neg hb]
      rw [h1, ← h2]
      constructor
      · intro hphr
        by_cases hs : isSuccessLine (statusLine env p.1 p.2) = true
        · exact hs
        · exact absurd (of_decide_eq_true hphr)
            (hnocoll _ hmem (by simpa using hs))
      · intro hs
        exact decide_eq_true (succPhrase_in_success_line _ hs)
  · unfold process_documents
    rw [if_neg (by simp only [List.isEmpty_eq_true]; exact hne)]

set_option maxRecDepth 16384 in
/-- Witness for C6 (amended) on a one-file batch whose PDF fails the
magic-byte check (its failure line does not contain the phrase); the
last conjunct instantiates the never-counted clause at an empty-bytes
upload whose very name contains the phrase. -/
theorem process_documents_batch_spec_witness :
    (statusLines envStub [⟨("a.pdf").toList, [(1 : Byte)]⟩]).length = 1 ∧
    countSuccessLines envStub [⟨("a.pdf").toList, [(1 : Byte)]⟩]
      = (statusLines envStub [⟨("a.pdf").toList, [(1 : Byte)]⟩]).countP
          isSuccessLine ∧
    process_documents envStub [⟨("a.pdf").toList, [(1 : Byte)]⟩]
      = joinSep [('\n')] (statusLines envStub [⟨("a.pdf").toList, [(1 : Byte)]⟩])
        ++ summaryMsg
            (countSuccessLines envStub [⟨("a.pdf").toList, [(1 : Byte)]⟩]) 1 ∧
    countedSuccess envStub 0 ⟨("successfully processed.txt").toList, []⟩
      = false := by
  have h := process_documents_batch_spec envStub
    [⟨("a.pdf").toList, [(1 : Byte)]⟩] (by decide)
  exact ⟨h.1, h.2.2.2.1 (by decide), h.2.2.2.2,
    h.2.2.1 0 ⟨("successfully processed.txt").toList, []⟩ rfl⟩
